import Mathlib

/-!
Verification of `student/objdet_detect.py` — the decode-and-transform
pipeline that turns post-processed neural-network output into 3D object
detections in vehicle coordinates.

The embedding is generic over a linearly ordered field `α`: Python floats
are idealised as exact field elements.  Concrete evaluations instantiate
`α := ℚ`; the claims about `np.arctan2` instantiate `α := ℝ`.  The opaque
inference call `model(input_bev_maps)` together with the external
post-processing helpers is summarised by the `Raw` input handed to the
decode branches; `Option.none` as a pipeline result models a raised
Python exception.
-/

/-- One 8-column row `[c0, x, y, z, h, w, l, yaw]`: the shape built by the
darknet decoder (`detections.append([1, x, y, 0.0, 1.50, w, l, yaw])`,
line 233) and by the projector (`objects.append([1, img_x, img_y, z,
bbox_bev_height, bbox_img_width, bbox_img_length, yaw])`, line 265), and
the shape unpacked by the projector loop (`_, bev_x, bev_y, z,
bbox_bev_height, bbox_bev_width, bbox_bev_length, yaw = obj`, line 254).
`c0` is the first column — the fixed class id `1` for darknet rows, the
confidence score for heatmap rows; the projector ignores it. -/
structure Box (α : Type) where
  c0 : α
  x : α
  y : α
  z : α
  h : α
  w : α
  l : α
  yaw : α
deriving DecidableEq

/-- A surviving row of the darknet `post_processing_v2` output, unpacked
at line 231 as `x, y, w, l, im, re, _, _, _ = obj`; the last three
columns (objectness and class scores) are ignored by the decoder. -/
structure DarkRow (α : Type) where
  x : α
  y : α
  w : α
  l : α
  im : α
  re : α
  objectness : α
  clsScore : α
  clsPred : α
deriving DecidableEq

/-- The slice of the `configs` edict that the decode-and-project pipeline
reads (`load_configs`, lines 140-145; `load_configs_model`, lines 57-111;
`detect_objects`, lines 221-263). -/
structure Cfg (α : Type) where
  arch : String
  lim_x : α × α
  lim_y : α × α
  lim_z : α × α
  bev_width : α
  bev_height : α
  conf_thresh : α
  nms_thresh : α
  peak_thresh : α
  k : Nat
deriving DecidableEq

/-- The post-processed model output reaching the decode branches of
`detect_objects`: the darknet branch consumes the per-sample list
produced by `post_processing_v2` (`None` marks a sample with no
surviving rows, lines 226-228); the fpn_resnet branch consumes the
scored candidate cells fed to the heatmap decoder. -/
inductive Raw (α : Type) where
  | dark (out : List (Option (List (DarkRow α))))
  | heat (cells : List (Box α))

/-- Python's substring test `pat in s` on lists of characters. -/
def hasSubstring (pat : List Char) : List Char → Bool
  | [] => pat.isEmpty
  | c :: rest => pat.isPrefixOf (c :: rest) || hasSubstring pat rest

variable {α : Type} [LinearOrderedField α]

/-- Lines 230-233: each surviving darknet row becomes
`[1, x, y, 0.0, 1.50, w, l, yaw]` with `yaw = np.arctan2(im, re)`.
The parameter `atan2` abstracts `np.arctan2` (over ℝ it is instantiated
with `np_arctan2` below). -/
def darkRowObj (atan2 : α → α → α) (r : DarkRow α) : Box α :=
  ⟨1, r.x, r.y, 0, 3 / 2, r.w, r.l, atan2 r.im r.re⟩

/-- Lines 225-233: loop over the samples of the post-processed darknet
output in order, skip `None` samples, and append one decoded row per
surviving object, in order. -/
def darknetDecode (atan2 : α → α → α) : List (Option (List (DarkRow α))) → List (Box α)
  | [] => []
  | none :: rest => darknetDecode atan2 rest
  | some det :: rest => det.map (darkRowObj atan2) ++ darknetDecode atan2 rest

/-- Insert a cell into a list sorted by descending confidence, before the
first strictly smaller confidence (so earlier-listed cells stay ahead of
later ties: a stable order). -/
def insertDesc (b : Box α) : List (Box α) → List (Box α)
  | [] => [b]
  | c :: rest => if c.c0 ≤ b.c0 then b :: c :: rest else c :: insertDesc b rest

/-- Stable sort of the candidate cells by descending confidence. -/
def sortDesc : List (Box α) → List (Box α)
  | [] => []
  | b :: rest => insertDesc b (sortDesc rest)

/-- Modelled from the spec: the heatmap-variant decoder `decode`
(`tools/objdet_models/resnet/utils/evaluation_utils`, not under `src/`)
called at lines 240-241 extracts the top-`k` peaks ranked by confidence
descending, ties broken by a deterministic stable order. -/
def heatmapDecode (k : Nat) (cells : List (Box α)) : List (Box α) :=
  (sortDesc cells).take k

/-- Modelled from the spec: `post_processing` for the heatmap variant
(also not under `src/`, called at line 243) keeps the candidates whose
confidence meets `peak_thresh`. -/
def heatmapPost (cfg : Cfg α) (cands : List (Box α)) : List (Box α) :=
  cands.filter fun b => decide (cfg.peak_thresh ≤ b.c0)

/-- Line 256: `img_x = bev_y / configs.bev_height * (configs.lim_x[1] -
configs.lim_x[0])`. -/
def img_x (cfg : Cfg α) (o : Box α) : α :=
  o.y / cfg.bev_height * (cfg.lim_x.2 - cfg.lim_x.1)

/-- Lines 257-258: `img_y = bev_x / configs.bev_width * (configs.lim_y[1]
- configs.lim_y[0]) - (configs.lim_y[1] - configs.lim_y[0]) / 2.0`. -/
def img_y (cfg : Cfg α) (o : Box α) : α :=
  o.x / cfg.bev_width * (cfg.lim_y.2 - cfg.lim_y.1) - (cfg.lim_y.2 - cfg.lim_y.1) / 2

/-- Line 259. -/
def bbox_img_width (cfg : Cfg α) (o : Box α) : α :=
  o.w / cfg.bev_width * (cfg.lim_y.2 - cfg.lim_y.1)

/-- Line 260. -/
def bbox_img_length (cfg : Cfg α) (o : Box α) : α :=
  o.l / cfg.bev_height * (cfg.lim_x.2 - cfg.lim_x.1)

/-- Lines 261-263: the range gate on the projected coordinates (Python's
chained comparisons `a <= b <= c` mean `a <= b and b <= c`). -/
def keepGate (cfg : Cfg α) (o : Box α) : Prop :=
  (cfg.lim_x.1 ≤ img_x cfg o ∧ img_x cfg o ≤ cfg.lim_x.2) ∧
  (cfg.lim_y.1 ≤ img_y cfg o ∧ img_y cfg o ≤ cfg.lim_y.2) ∧
  (cfg.lim_z.1 ≤ o.z ∧ o.z ≤ cfg.lim_z.2)

instance (cfg : Cfg α) (o : Box α) : Decidable (keepGate cfg o) :=
  inferInstanceAs (Decidable (_ ∧ _))

/-- Line 265: the object appended for a candidate that passes the gate. -/
def projBox (cfg : Cfg α) (o : Box α) : Box α :=
  ⟨1, img_x cfg o, img_y cfg o, o.z, o.h, bbox_img_width cfg o, bbox_img_length cfg o, o.yaw⟩

/-- Lines 252-265: the projection-and-gating loop over the detections. -/
def detectLoop (cfg : Cfg α) : List (Box α) → List (Box α)
  | [] => []
  | o :: rest =>
    if keepGate cfg o then projBox cfg o :: detectLoop cfg rest
    else detectLoop cfg rest

/-- Lines 247-266: `objects = []`, the `len(detections) > 0` guard, and
the loop. -/
def extractObjects (cfg : Cfg α) (dets : List (Box α)) : List (Box α) :=
  if 0 < dets.length then detectLoop cfg dets else []

/-- Lines 221-244: branch on the architecture string (Python `in` is
substring containment).  `none` models the exception Python raises on
that path: a shape mismatch inside a branch whose raw output does not
fit it, and the `UnboundLocalError` at line 250 (`detections` was never
assigned) when neither branch matches. -/
def decodeStep (atan2 : α → α → α) (cfg : Cfg α) : Raw α → Option (List (Box α))
  | .dark out =>
    if hasSubstring "darknet".toList cfg.arch.toList then some (darknetDecode atan2 out)
    else none
  | .heat cells =>
    if hasSubstring "darknet".toList cfg.arch.toList then none
    else if hasSubstring "fpn_resnet".toList cfg.arch.toList then
      some (heatmapPost cfg (heatmapDecode cfg.k cells))
    else none

/-- Lines 196-267, `detect_objects`: decode the (post-processed) model
output according to the configured backend, then extract the 3D bounding
boxes by projecting into vehicle space with range gating. -/
def detect_objects (atan2 : α → α → α) (cfg : Cfg α) (raw : Raw α) : Option (List (Box α)) :=
  (decodeStep atan2 cfg raw).map fun dets => extractObjects cfg dets

/-- Lines 36-120, `load_configs_model`, restricted to the fields the
decode pipeline reads: sets the model-dependent parameters for the two
recognised names and raises `ValueError("Error: Invalid model name")`
(line 111) for every other name, modelled by `Except.error`. -/
def load_configs_model (model_name : String) (configs : Cfg α) : Except String (Cfg α) :=
  if model_name = "darknet" then
    Except.ok {configs with arch := "darknet", conf_thresh := 1 / 2, nms_thresh := 2 / 5}
  else if model_name = "fpn_resnet" then
    Except.ok {configs with arch := "fpn_resnet", conf_thresh := 1 / 2,
                            peak_thresh := 1 / 5, k := 50}
  else
    Except.error "Error: Invalid model name"

/-- Lines 123-154, `load_configs`, restricted to the fields the decode
pipeline reads: the BEV limits and resolution (lines 140-145), then the
model-dependent parameters via `load_configs_model` (line 148). -/
def load_configs (model_name : String) (configs : Cfg α) : Except String (Cfg α) :=
  load_configs_model model_name
    {configs with lim_x := (0, 50), lim_y := (-25, 25), lim_z := (-1, 3),
                  bev_width := 608, bev_height := 608}

/-- `np.arctan2 im re`, idealised over ℝ: the argument of the complex
number `re + im * I`.  In particular `np_arctan2 0 0 = 0` and the range
is `(-π, π]`. -/
noncomputable def np_arctan2 (im re : ℝ) : ℝ :=
  Complex.arg ⟨re, im⟩

/-- The configuration produced by `load_configs` for the fpn_resnet
model, over ℚ (used as a concrete evaluation point). -/
def cfg608 : Cfg ℚ :=
  { arch := "fpn_resnet", lim_x := (0, 50), lim_y := (-25, 25), lim_z := (-1, 3),
    bev_width := 608, bev_height := 608, conf_thresh := 1 / 2, nms_thresh := 2 / 5,
    peak_thresh := 1 / 5, k := 50 }

/-- The same configuration with the darknet architecture selected. -/
def cfgDark : Cfg ℚ :=
  {cfg608 with arch := "darknet", nms_thresh := 2 / 5}

theorem darknetDecode_mem (atan2 : α → α → α) (out : List (Option (List (DarkRow α))))
    (c : Box α) :
    c ∈ darknetDecode atan2 out ↔
      ∃ rows, some rows ∈ out ∧ ∃ r ∈ rows, c = darkRowObj atan2 r := by
  induction out with
  | nil => simp [darknetDecode]
  | cons s rest ih =>
    cases s with
    | none =>
      simp only [darknetDecode, ih, List.mem_cons]
      constructor
      · rintro ⟨rows, hrows, r, hr, rfl⟩
        exact ⟨rows, Or.inr hrows, r, hr, rfl⟩
      · rintro ⟨rows, hrows | hrows, r, hr, rfl⟩
        · simp at hrows
        · exact ⟨rows, hrows, r, hr, rfl⟩
    | some det =>
      simp only [darknetDecode, List.mem_append, List.mem_map, List.mem_cons, ih,
        Option.some.injEq]
      constructor
      · rintro (⟨r, hr, rfl⟩ | ⟨rows, hrows, r, hr, rfl⟩)
        · exact ⟨det, Or.inl rfl, r, hr, rfl⟩
        · exact ⟨rows, Or.inr hrows, r, hr, rfl⟩
      · rintro ⟨rows, hrows | hrows, r, hr, rfl⟩
        · exact Or.inl ⟨r, hrows ▸ hr, rfl⟩
        · exact Or.inr ⟨rows, hrows, r, hr, rfl⟩

theorem detectLoop_eq_filterMap (cfg : Cfg α) (dets : List (Box α)) :
    detectLoop cfg dets =
      dets.filterMap fun o => if keepGate cfg o then some (projBox cfg o) else none := by
  induction dets with
  | nil => rfl
  | cons o rest ih =>
    by_cases h : keepGate cfg o <;>
      simp [detectLoop, List.filterMap_cons, h, ih]

theorem detectLoop_mem (cfg : Cfg α) (dets : List (Box α)) (d : Box α) :
    d ∈ detectLoop cfg dets ↔
      ∃ o, o ∈ dets ∧ keepGate cfg o ∧ projBox cfg o = d := by
  rw [detectLoop_eq_filterMap]
  simp only [List.mem_filterMap]
  constructor
  · rintro ⟨o, ho, hif⟩
    by_cases h : keepGate cfg o
    · rw [if_pos h] at hif
      exact ⟨o, ho, h, Option.some.inj hif⟩
    · rw [if_neg h] at hif
      cases hif
  · rintro ⟨o, ho, hg, rfl⟩
    exact ⟨o, ho, by rw [if_pos hg]⟩

theorem extractObjects_eq (cfg : Cfg α) (dets : List (Box α)) :
    extractObjects cfg dets = detectLoop cfg dets := by
  cases dets <;> simp [extractObjects, detectLoop]

theorem detectLoop_sublist (cfg : Cfg α) (dets : List (Box α)) :
    List.Sublist (detectLoop cfg dets) (dets.map (projBox cfg)) := by
  induction dets with
  | nil => simp [detectLoop]
  | cons o rest ih =>
    by_cases h : keepGate cfg o
    · simpa [detectLoop, if_pos h] using List.Sublist.cons₂ (projBox cfg o) ih
    · simpa [detectLoop, if_neg h] using List.Sublist.cons (projBox cfg o) ih

theorem detectLoop_length_le (cfg : Cfg α) (dets : List (Box α)) :
    (detectLoop cfg dets).length ≤ dets.length := by
  calc (detectLoop cfg dets).length
      ≤ (dets.map (projBox cfg)).length := (detectLoop_sublist cfg dets).length_le
    _ = dets.length := List.length_map _ _

/-- Claim C1: a candidate reaching the coordinate projector is retained in
the final list iff its projected `img_x` lies in `[lim_x[0], lim_x[1]]`,
its projected `img_y` lies in `[lim_y[0], lim_y[1]]` and its `z` lies in
`[lim_z[0], lim_z[1]]`; out-of-range candidates are dropped silently, and
consequently every object returned by `detect_objects` satisfies the
range invariant on its `x`, `y` and `z` fields. -/
theorem detect_range_invariant (atan2 : α → α → α) (cfg : Cfg α) :
    (∀ (dets : List (Box α)) (d : Box α),
        d ∈ extractObjects cfg dets ↔
          ∃ o, o ∈ dets ∧
            ((cfg.lim_x.1 ≤ img_x cfg o ∧ img_x cfg o ≤ cfg.lim_x.2) ∧
              (cfg.lim_y.1 ≤ img_y cfg o ∧ img_y cfg o ≤ cfg.lim_y.2) ∧
              (cfg.lim_z.1 ≤ o.z ∧ o.z ≤ cfg.lim_z.2)) ∧
            projBox cfg o = d) ∧
    (∀ (raw : Raw α) (res : List (Box α)) (d : Box α),
        detect_objects atan2 cfg raw = some res → d ∈ res →
          (cfg.lim_x.1 ≤ d.x ∧ d.x ≤ cfg.lim_x.2) ∧
          (cfg.lim_y.1 ≤ d.y ∧ d.y ≤ cfg.lim_y.2) ∧
          (cfg.lim_z.1 ≤ d.z ∧ d.z ≤ cfg.lim_z.2)) := by
  have hmem : ∀ (dets : List (Box α)) (d : Box α),
      d ∈ extractObjects cfg dets ↔
        ∃ o, o ∈ dets ∧ keepGate cfg o ∧ projBox cfg o = d := by
    intro dets d
    rw [extractObjects_eq]
    exact detectLoop_mem cfg dets d
  constructor
  · intro dets d
    simpa only [keepGate] using hmem dets d
  · intro raw res d hres hd
    simp only [detect_objects] at hres
    obtain ⟨dets, -, rfl⟩ := Option.map_eq_some'.1 hres
    obtain ⟨o, -, hg, rfl⟩ := (hmem dets d).1 hd
    exact hg

/-- Concrete instance of the C1 range invariant: the detection produced
from the darknet row at BEV pixel (304, 304) lies inside the configured
limits. -/
theorem detect_range_invariant_witness :
    (cfgDark.lim_x.1 ≤ (25 : ℚ) ∧ (25 : ℚ) ≤ cfgDark.lim_x.2) ∧
    (cfgDark.lim_y.1 ≤ (0 : ℚ) ∧ (0 : ℚ) ≤ cfgDark.lim_y.2) ∧
    (cfgDark.lim_z.1 ≤ (0 : ℚ) ∧ (0 : ℚ) ≤ cfgDark.lim_z.2) :=
  (detect_range_invariant (fun _ _ => (0 : ℚ)) cfgDark).2
    (.dark [some [⟨304, 304, 0, 0, 0, 1, 0, 0, 0⟩]])
    [⟨1, 25, 0, 0, 3 / 2, 0, 0, 0⟩] ⟨1, 25, 0, 0, 3 / 2, 0, 0, 0⟩
    (by
      simp +decide only [detect_objects, decodeStep]
      norm_num [darknetDecode, darkRowObj, extractObjects, detectLoop, keepGate, projBox,
        img_x, img_y, bbox_img_width, bbox_img_length, cfgDark, cfg608])
    (by simp)

/-- Claim C2: for every candidate the projector computes
`img_x = bev_y / bev_height * (lim_x[1] - lim_x[0])`,
`img_y = bev_x / bev_width * (lim_y[1] - lim_y[0]) - (lim_y[1] - lim_y[0])/2`,
scales the box width by `(lim_y[1] - lim_y[0]) / bev_width` and the box
length by `(lim_x[1] - lim_x[0]) / bev_height`, and passes `z` and the
box height through unchanged; with `bev_width = bev_height = 608`,
`lim_x = [0, 50]`, `lim_y = [-25, 25]`, a candidate at `bev_x = 304`,
`bev_y = 304` projects to `img_x = 25` and `img_y = 0`. -/
theorem projector_formula (cfg : Cfg α) (o : Box α) :
    ((projBox cfg o).x = o.y / cfg.bev_height * (cfg.lim_x.2 - cfg.lim_x.1) ∧
     (projBox cfg o).y = o.x / cfg.bev_width * (cfg.lim_y.2 - cfg.lim_y.1)
        - (cfg.lim_y.2 - cfg.lim_y.1) / 2 ∧
     (projBox cfg o).w = o.w * ((cfg.lim_y.2 - cfg.lim_y.1) / cfg.bev_width) ∧
     (projBox cfg o).l = o.l * ((cfg.lim_x.2 - cfg.lim_x.1) / cfg.bev_height) ∧
     (projBox cfg o).z = o.z ∧ (projBox cfg o).h = o.h ∧
     (projBox cfg o).yaw = o.yaw) ∧
    ((projBox cfg608 ⟨0, 304, 304, 0, 0, 0, 0, 0⟩).x = 25 ∧
     (projBox cfg608 ⟨0, 304, 304, 0, 0, 0, 0, 0⟩).y = 0) := by
  refine ⟨⟨rfl, rfl, ?_, ?_, rfl, rfl, rfl⟩, ?_, ?_⟩
  · show o.w / cfg.bev_width * (cfg.lim_y.2 - cfg.lim_y.1) = _
    ring
  · show o.l / cfg.bev_height * (cfg.lim_x.2 - cfg.lim_x.1) = _
    ring
  · norm_num [projBox, img_x, cfg608]
  · norm_num [projBox, img_y, cfg608]

/-- Claim C10: the coordinate projector is an order-preserving filter-map
over the candidate list — it equals a `filterMap` of the gate-and-project
function, and the result is a sublist of the projected candidates (so
each retained candidate contributes exactly one detection, in the same
relative order, with no duplication or reordering). -/
theorem projector_order_preserving (cfg : Cfg α) (dets : List (Box α)) :
    extractObjects cfg dets =
      (dets.filterMap fun o => if keepGate cfg o then some (projBox cfg o) else none) ∧
    List.Sublist (extractObjects cfg dets) (dets.map (projBox cfg)) := by
  rw [extractObjects_eq]
  exact ⟨detectLoop_eq_filterMap cfg dets, detectLoop_sublist cfg dets⟩

/-- Claim C3: for every `(im, re)` pair in a surviving direct-regression
row — including the degenerate pair `(0, 0)` — the decoded yaw
`atan2(im, re)` is a defined value with `atan2(0, 0) = 0`, and every yaw
emitted by the darknet decoder lies in the half-open interval `(-π, π]`. -/
theorem darknet_yaw_range :
    np_arctan2 0 0 = 0 ∧
    ∀ (out : List (Option (List (DarkRow ℝ)))) (c : Box ℝ),
      c ∈ darknetDecode np_arctan2 out →
        c.yaw ∈ Set.Ioc (-Real.pi) Real.pi := by
  constructor
  · have h0 : (⟨0, 0⟩ : ℂ) = 0 := Complex.ext rfl rfl
    show Complex.arg ⟨0, 0⟩ = 0
    rw [h0, Complex.arg_zero]
  · intro out c hc
    obtain ⟨rows, -, r, -, rfl⟩ := (darknetDecode_mem np_arctan2 out c).1 hc
    exact Complex.arg_mem_Ioc ⟨r.re, r.im⟩

/-- Concrete instance of C3: the yaw decoded from the degenerate row with
`im = re = 0` lies in `(-π, π]`. -/
theorem darknet_yaw_range_witness :
    (darkRowObj np_arctan2 ⟨0, 0, 0, 0, 0, 0, 0, 0, 0⟩).yaw ∈
      Set.Ioc (-Real.pi) Real.pi :=
  darknet_yaw_range.2 [some [⟨0, 0, 0, 0, 0, 0, 0, 0, 0⟩]] _ (by simp [darknetDecode])

/-- Claim C4: every candidate emitted by the direct-regression (darknet)
decoder comes from a surviving row and equals
`[1, x, y, 0.0, 1.50, w, l, atan2(im, re)]`: class id fixed to the
constant `1`, height fixed to the nominal constant `1.50`,
`yaw = atan2(im, re)`, and `(x, y, w, l)` taken directly from the row. -/
theorem darknet_row_decode (out : List (Option (List (DarkRow ℝ)))) (c : Box ℝ)
    (hc : c ∈ darknetDecode np_arctan2 out) :
    ∃ rows r, some rows ∈ out ∧ r ∈ rows ∧
      c = ⟨1, r.x, r.y, 0, 3 / 2, r.w, r.l, np_arctan2 r.im r.re⟩ := by
  obtain ⟨rows, h1, r, h2, rfl⟩ := (darknetDecode_mem np_arctan2 out c).1 hc
  exact ⟨rows, r, h1, h2, rfl⟩

/-- Concrete instance of C4 at a one-row sample. -/
theorem darknet_row_decode_witness :
    ∃ rows r, some rows ∈ [some [(⟨3, 4, 5, 6, 0, 1, 0, 0, 0⟩ : DarkRow ℝ)]] ∧
      r ∈ rows ∧
      darkRowObj np_arctan2 ⟨3, 4, 5, 6, 0, 1, 0, 0, 0⟩ =
        ⟨1, r.x, r.y, 0, 3 / 2, r.w, r.l, np_arctan2 r.im r.re⟩ :=
  darknet_row_decode [some [⟨3, 4, 5, 6, 0, 1, 0, 0, 0⟩]] _ (by simp [darknetDecode])

theorem darknetDecode_eq_nil (atan2 : α → α → α)
    (out : List (Option (List (DarkRow α))))
    (hout : ∀ s ∈ out, s = none ∨ s = some []) :
    darknetDecode atan2 out = [] := by
  induction out with
  | nil => rfl
  | cons s rest ih =>
    have hrest := ih fun t ht => hout t (List.mem_cons_of_mem _ ht)
    rcases hout s (List.mem_cons_self s rest) with rfl | rfl
    · simpa [darknetDecode] using hrest
    · simpa [darknetDecode] using hrest

/-- Claim C5: when decoding or range gating leaves zero candidates — a
darknet output whose samples are all `None` or empty, or a candidate
list whose members all fail the spatial gate — `detect_objects` returns
an empty detection list rather than an error. -/
theorem empty_result_propagation (atan2 : α → α → α) (cfg : Cfg α)
    (out : List (Option (List (DarkRow α)))) (dets : List (Box α)) :
    ((∀ s ∈ out, s = none ∨ s = some []) →
      hasSubstring "darknet".toList cfg.arch.toList = true →
      detect_objects atan2 cfg (.dark out) = some []) ∧
    ((∀ o ∈ dets, ¬ keepGate cfg o) → extractObjects cfg dets = []) := by
  constructor
  · intro hout harch
    simp only [detect_objects, decodeStep]
    rw [if_pos harch, darknetDecode_eq_nil atan2 out hout]
    rfl
  · intro h
    rw [extractObjects_eq]
    refine List.eq_nil_iff_forall_not_mem.2 fun d hd => ?_
    obtain ⟨o, ho, hg, -⟩ := (detectLoop_mem cfg dets d).1 hd
    exact h o ho hg

/-- Concrete instance of C5: a darknet output of a `None` sample and an
empty sample yields `some []`, and a single out-of-range candidate
(z = 100) is gated away. -/
theorem empty_result_propagation_witness :
    detect_objects (fun _ _ => (0 : ℚ)) cfgDark (.dark [none, some []]) = some [] ∧
    extractObjects cfg608 [⟨0, 0, 0, 100, 0, 0, 0, 0⟩] = [] :=
  ⟨(empty_result_propagation (fun _ _ => (0 : ℚ)) cfgDark [none, some []] []).1
      (by decide) (by decide),
   (empty_result_propagation (fun _ _ => (0 : ℚ)) cfg608 []
        [⟨0, 0, 0, 100, 0, 0, 0, 0⟩]).2
      (by
        intro o ho
        simp only [List.mem_singleton] at ho
        subst ho
        norm_num [keepGate, img_x, img_y, cfg608])⟩

/-- Claim C6: the heatmap-variant decoder returns at most `k` candidates
however many cells exceed the confidence floor, and hence the final
detection list of the heatmap path has length at most `k`. -/
theorem heatmap_topk_bound (atan2 : α → α → α) (cfg : Cfg α) (cells : List (Box α)) :
    (∀ k : Nat, (heatmapDecode k cells).length ≤ k) ∧
    (∀ res : List (Box α),
        detect_objects atan2 cfg (.heat cells) = some res → res.length ≤ cfg.k) := by
  constructor
  · intro k
    exact List.length_take_le k (sortDesc cells)
  · intro res hres
    simp only [detect_objects, decodeStep] at hres
    by_cases hd : hasSubstring "darknet".toList cfg.arch.toList = true
    · rw [if_pos hd] at hres
      simp at hres
    · rw [if_neg hd] at hres
      by_cases hf : hasSubstring "fpn_resnet".toList cfg.arch.toList = true
      · rw [if_pos hf] at hres
        rw [Option.map_some'] at hres
        obtain rfl := Option.some.inj hres
        rw [extractObjects_eq]
        calc (detectLoop cfg (heatmapPost cfg (heatmapDecode cfg.k cells))).length
            ≤ (heatmapPost cfg (heatmapDecode cfg.k cells)).length :=
              detectLoop_length_le _ _
          _ ≤ (heatmapDecode cfg.k cells).length := List.length_filter_le _ _
          _ ≤ cfg.k := List.length_take_le _ _
      · rw [if_neg hf] at hres
        simp at hres

/-- Concrete instance of C6 at an empty cell list. -/
theorem heatmap_topk_bound_witness :
    (heatmapDecode 50 ([] : List (Box ℚ))).length ≤ 50 ∧
    ([] : List (Box ℚ)).length ≤ cfg608.k :=
  ⟨(heatmap_topk_bound (fun _ _ => (0 : ℚ)) cfg608 []).1 50,
   (heatmap_topk_bound (fun _ _ => (0 : ℚ)) cfg608 []).2 []
     (by simp +decide only [detect_objects, decodeStep])⟩

/-- Claim C7: `detect_objects` is deterministic — for equal decoded
inputs, equal parameter bundles and the same yaw-decoding function, two
invocations return identical detection sequences.  In this functional
embedding the pipeline is a pure function of its arguments, so
determinism is congruence. -/
theorem detect_deterministic (atan2a atan2b : α → α → α) (cfga cfgb : Cfg α)
    (rawa rawb : Raw α) (hf : atan2a = atan2b) (hc : cfga = cfgb) (hr : rawa = rawb) :
    detect_objects atan2a cfga rawa = detect_objects atan2b cfgb rawb := by
  subst hf
  subst hc
  subst hr
  rfl

/-- Concrete instance of C7. -/
theorem detect_deterministic_witness :
    detect_objects (fun _ _ => (0 : ℚ)) cfg608 (.heat []) =
      detect_objects (fun _ _ => (0 : ℚ)) cfg608 (.heat []) :=
  detect_deterministic _ _ _ _ _ _ rfl rfl rfl

/-- Claim C8: an unrecognized backend selector is a fatal configuration
error: `load_configs_model` raises `ValueError` for any name other than
the two fixed variants, and for a config whose `arch` contains neither
variant the decode pipeline fails (modelled `none`) instead of falling
back or returning detections. -/
theorem invalid_backend_fatal (name : String) (configs : Cfg α)
    (atan2 : α → α → α) (cfg : Cfg α) (raw : Raw α)
    (h1 : name ≠ "darknet") (h2 : name ≠ "fpn_resnet")
    (hd : hasSubstring "darknet".toList cfg.arch.toList = false)
    (hf : hasSubstring "fpn_resnet".toList cfg.arch.toList = false) :
    load_configs_model name configs = Except.error "Error: Invalid model name" ∧
    detect_objects atan2 cfg raw = none := by
  constructor
  · simp [load_configs_model, h1, h2]
  · have hd' : ¬ hasSubstring "darknet".toList cfg.arch.toList = true := by
      rw [hd]
      exact Bool.false_ne_true
    have hf' : ¬ hasSubstring "fpn_resnet".toList cfg.arch.toList = true := by
      rw [hf]
      exact Bool.false_ne_true
    cases raw
    · simp only [detect_objects, decodeStep]
      rw [if_neg hd']
      rfl
    · simp only [detect_objects, decodeStep]
      rw [if_neg hd', if_neg hf']
      rfl

/-- Concrete instance of C8 with the name "resnet" and the arch "foo". -/
theorem invalid_backend_fatal_witness :
    load_configs_model "resnet" cfg608 = Except.error "Error: Invalid model name" ∧
    detect_objects (fun _ _ => (0 : ℚ)) {cfg608 with arch := "foo"} (.dark []) = none :=
  invalid_backend_fatal "resnet" cfg608 (fun _ _ => (0 : ℚ)) {cfg608 with arch := "foo"}
    (.dark []) (by decide) (by decide) (by decide) (by decide)

/-- Claim C9: every candidate produced by the darknet branch has
`z = 0.0` exactly, hence every detection emitted through that branch has
`z = 0.0`; such a candidate passes the z-range gate iff
`lim_z[0] ≤ 0 ≤ lim_z[1]`, which holds for the default `lim_z = [-1, 3]`
installed by `load_configs`. -/
theorem darknet_z_zero (atan2 : α → α → α) :
    (∀ (out : List (Option (List (DarkRow α)))) (c : Box α),
        c ∈ darknetDecode atan2 out → c.z = 0) ∧
    (∀ (cfg : Cfg α) (out : List (Option (List (DarkRow α))))
        (res : List (Box α)) (d : Box α),
        detect_objects atan2 cfg (.dark out) = some res → d ∈ res → d.z = 0) ∧
    (∀ (cfg : Cfg α) (o : Box α), o.z = 0 →
        ((cfg.lim_z.1 ≤ o.z ∧ o.z ≤ cfg.lim_z.2) ↔
          (cfg.lim_z.1 ≤ 0 ∧ (0 : α) ≤ cfg.lim_z.2))) ∧
    (∀ (name : String) (configs cfgr : Cfg α),
        load_configs name configs = Except.ok cfgr →
        cfgr.lim_z.1 ≤ 0 ∧ (0 : α) ≤ cfgr.lim_z.2) := by
  have hz : ∀ (out : List (Option (List (DarkRow α)))) (c : Box α),
      c ∈ darknetDecode atan2 out → c.z = 0 := by
    intro out c hc
    obtain ⟨rows, -, r, -, rfl⟩ := (darknetDecode_mem atan2 out c).1 hc
    rfl
  refine ⟨hz, ?_, ?_, ?_⟩
  · intro cfg out res d hres hd
    simp only [detect_objects, decodeStep] at hres
    by_cases hdk : hasSubstring "darknet".toList cfg.arch.toList = true
    · rw [if_pos hdk, Option.map_some'] at hres
      obtain rfl := Option.some.inj hres
      rw [extractObjects_eq] at hd
      obtain ⟨o, ho, -, rfl⟩ := (detectLoop_mem cfg _ d).1 hd
      exact hz out o ho
    · rw [if_neg hdk] at hres
      simp at hres
  · intro cfg o h
    rw [h]
  · intro name configs cfgr h
    simp only [load_configs, load_configs_model] at h
    split_ifs at h with h1 h2
    · injection h with h3
      subst h3
      norm_num
    · injection h with h3
      subst h3
      norm_num

/-- Concrete instance of C9: the candidate decoded from a darknet row has
`z = 0`, and the default `lim_z` of the darknet configuration brackets 0. -/
theorem darknet_z_zero_witness :
    (darkRowObj (fun _ _ => (0 : ℚ)) ⟨304, 304, 0, 0, 0, 1, 0, 0, 0⟩).z = 0 ∧
    (cfgDark.lim_z.1 ≤ 0 ∧ (0 : ℚ) ≤ cfgDark.lim_z.2) :=
  ⟨(darknet_z_zero (fun _ _ => (0 : ℚ))).1 [some [⟨304, 304, 0, 0, 0, 1, 0, 0, 0⟩]] _
      (by simp [darknetDecode]),
   (darknet_z_zero (fun _ _ => (0 : ℚ))).2.2.2 "darknet" cfg608 cfgDark rfl⟩
